import Mathlib

/-!
Shallow embedding of the declaration-level AST item model
(`crates/ast/src/ast/item.rs`) and of the test-directive scanner
(`tools/tester/src/header.rs`) of the repository, together with proofs of
the specified properties.

Conventions of the embedding:
* Rust strings are represented as `List Char` (the scanner only ever
  inspects ASCII bytes, for which byte indices and character indices
  coincide).
* Rust panics are represented as `Except.error` carrying the panic
  message; a function whose Rust counterpart can panic returns
  `Except String α`.
* A whole fixture file is represented by the list of its lines, i.e. the
  result of Rust `str::lines` / the `read_line` loop.
-/

set_option autoImplicit false

/-! ## AST item model (`crates/ast/src/ast/item.rs`) -/

/-- A source range. Modelled from the spec: `Span` comes from the interface
crate, which is not among the provided sources; the item model only carries
spans around, so only its identity matters. -/
structure Span where
  lo : Nat
  hi : Nat
  deriving DecidableEq

/-- An identifier token. Modelled from the spec: `Ident` comes from the
interface crate, which is not among the provided sources; it carries its
text (exposed by `as_str`) and its source span. -/
structure Ident where
  name : String
  span : Span
  deriving DecidableEq

/-- Rust `Ident::as_str`: the text of the identifier. -/
def Ident.as_str (i : Ident) : String :=
  i.name

/-- A string literal token. Modelled from the spec: `StrLit` is an
already-decoded leaf value carrying its decoded content (`value`) and its
span, as used by `IdentOrStrLit::value`/`span`. -/
structure StrLit where
  value : String
  span : Span
  deriving DecidableEq

/-- A lexed token (`Token`), an uninterpreted leaf value of this model:
`PragmaTokens::Verbatim` stores tokens but never inspects them. -/
structure Token where
  raw : String
  deriving DecidableEq

/-- A Semantic Versioning requirement (`SemverReq`), an uninterpreted leaf
value of this model: the item model stores it but never inspects it. -/
structure SemverReq where
  raw : String
  deriving DecidableEq

/-- An identifier or a string literal (`IdentOrStrLit`). -/
inductive IdentOrStrLit where
  | Ident (ident : Ident)
  | StrLit (str_lit : StrLit)
  deriving DecidableEq

/-- Rust `IdentOrStrLit::value`: the string value of the identifier or
literal. -/
def IdentOrStrLit.value : IdentOrStrLit → String
  | .Ident ident => ident.as_str
  | .StrLit str_lit => str_lit.value

/-- Rust `IdentOrStrLit::span`: the span of the identifier or literal. -/
def IdentOrStrLit.span : IdentOrStrLit → Span
  | .Ident ident => ident.span
  | .StrLit str_lit => str_lit.span

/-- The parsed or unparsed tokens of a pragma directive (`PragmaTokens`). -/
inductive PragmaTokens where
  | Version (name : Ident) (req : SemverReq)
  | Custom (name : IdentOrStrLit) (value : Option IdentOrStrLit)
  | Verbatim (tokens : List Token)
  deriving DecidableEq

/-- Rust `PragmaTokens::as_name_and_value`: the name and value of the
pragma directive, if any. -/
def PragmaTokens.as_name_and_value :
    PragmaTokens → Option (IdentOrStrLit × Option IdentOrStrLit)
  | .Custom name value => some (name, value)
  | _ => none

/-- The kind of contract (`ContractKind`). -/
inductive ContractKind where
  | Contract
  | AbstractContract
  | Interface
  | Library
  deriving DecidableEq, Fintype

/-- Rust `ContractKind::to_str`. -/
def ContractKind.to_str : ContractKind → String
  | .Contract => "contract"
  | .AbstractContract => "abstract contract"
  | .Interface => "interface"
  | .Library => "library"

/-- A kind of function (`FunctionKind`). -/
inductive FunctionKind where
  | Constructor
  | Function
  | Fallback
  | Receive
  | Modifier
  deriving DecidableEq, Fintype

/-- Rust `FunctionKind::to_str`. -/
def FunctionKind.to_str : FunctionKind → String
  | .Constructor => "constructor"
  | .Function => "function"
  | .Fallback => "fallback"
  | .Receive => "receive"
  | .Modifier => "modifier"

/-- A storage location (`Storage`). -/
inductive Storage where
  | Memory
  | Storage
  | Calldata
  deriving DecidableEq, Fintype

/-- Alias for the type `Storage`: inside the namespace `Storage` the bare
name resolves to the constructor `Storage.Storage`, so signatures there
refer to the type through this alias. -/
abbrev StorageTy : Type := Storage

/-- Rust `Storage::to_str`. -/
def Storage.to_str : StorageTy → String
  | .Memory => "memory"
  | .Storage => "storage"
  | .Calldata => "calldata"

/-- How a function can mutate the EVM state (`StateMutability`). -/
inductive StateMutability where
  | Pure
  | View
  | Payable
  deriving DecidableEq, Fintype

/-- Rust `StateMutability::to_str`. -/
def StateMutability.to_str : StateMutability → String
  | .Pure => "pure"
  | .View => "view"
  | .Payable => "payable"

/-- Visibility ordered from restricted to unrestricted (`Visibility`). -/
inductive Visibility where
  | Private
  | Internal
  | Public
  | External
  deriving DecidableEq, Fintype

/-- Rust `Visibility::to_str`. -/
def Visibility.to_str : Visibility → String
  | .Private => "private"
  | .Internal => "internal"
  | .Public => "public"
  | .External => "external"

/-- The Rust discriminant of a `Visibility` value: the enum declares no
explicit discriminants, so Rust assigns `0, 1, 2, 3` in declaration order
(`Private`, `Internal`, `Public`, `External`). -/
def Visibility.discriminant : Visibility → Nat
  | .Private => 0
  | .Internal => 1
  | .Public => 2
  | .External => 3

/-- The mutability of a variable (`VarMut`). -/
inductive VarMut where
  | Immutable
  | Constant
  deriving DecidableEq, Fintype

/-- Rust `VarMut::to_str`. -/
def VarMut.to_str : VarMut → String
  | .Immutable => "immutable"
  | .Constant => "constant"

/-! ## Test-directive scanner (`tools/tester/src/header.rs`) -/

/-- A Rust string slice, as the list of its characters. -/
abbrev Line := List Char

/-- Converts a Lean string literal to the `Line` representation. -/
def toLine (s : String) : Line :=
  s.toList

/-- Whether `pre` is a leading segment of `l` (Rust `str::starts_with` /
`strip_prefix` applicability test). -/
def leadsWith : Line → Line → Bool
  | [], _ => true
  | _ :: _, [] => false
  | c :: cs, x :: xs => c == x && leadsWith cs xs

/-- Rust `u8::is_ascii_whitespace`: space (0x20), horizontal tab (0x09),
line feed (0x0A), form feed (0x0C), carriage return (0x0D). -/
def u8_is_ascii_whitespace (c : Char) : Bool :=
  c.toNat == 32 || c.toNat == 9 || c.toNat == 10 || c.toNat == 12 || c.toNat == 13

/-- Rust `char::is_whitespace` restricted to the ASCII range (the scanner
operates on ASCII fixture text): space (0x20) and 0x09–0x0D. -/
def char_is_whitespace (c : Char) : Bool :=
  c.toNat == 32 || (9 ≤ c.toNat && c.toNat ≤ 13)

/-- Rust `str::trim_start` (on ASCII input). -/
def trim_start (l : Line) : Line :=
  l.dropWhile char_is_whitespace

/-- Rust `str::trim` (on ASCII input). -/
def trim (l : Line) : Line :=
  ((l.dropWhile char_is_whitespace).reverse.dropWhile char_is_whitespace).reverse

/-- Rust `str::find(char)`: index of the first occurrence of `c`, if any. -/
def find_char (c : Char) : Line → Option Nat
  | [] => none
  | x :: xs => if x == c then some 0 else (find_char c xs).map (· + 1)

/-- Rust `str::split_ascii_whitespace`, accumulator-based: `acc` holds the
characters of the current word in reverse. -/
def split_ascii_whitespace_aux : Line → Line → List Line
  | [], acc => if acc.isEmpty then [] else [acc.reverse]
  | c :: rest, acc =>
    if u8_is_ascii_whitespace c then
      if acc.isEmpty then split_ascii_whitespace_aux rest []
      else acc.reverse :: split_ascii_whitespace_aux rest []
    else split_ascii_whitespace_aux rest (c :: acc)

/-- Rust `str::split_ascii_whitespace`: the whitespace-separated words of
the line, with no empty words. -/
def split_ascii_whitespace (l : Line) : List Line :=
  split_ascii_whitespace_aux l []

/-- The kind of a recognized test directive (`DirectiveKind`). -/
inductive DirectiveKind where
  | Dummy
  | EvmVersion
  deriving DecidableEq

/-- Rust `DirectiveKind::from_str_`: only `evm-version` is recognized. -/
def DirectiveKind.from_str_ (s : Line) : Option DirectiveKind :=
  if s = toLine "evm-version" then some .EvmVersion else none

/-- The `Debug` rendering of a `DirectiveKind`, used in panic messages. -/
def DirectiveKind.debug_fmt : DirectiveKind → String
  | .Dummy => "Dummy"
  | .EvmVersion => "EvmVersion"

/-- A parsed test directive (`TestDirective`). -/
structure TestDirective where
  negative : Bool
  kind : DirectiveKind
  deriving DecidableEq

/-- Rust `TestDirective::DUMMY`. -/
def TestDirective.DUMMY : TestDirective :=
  { negative := false, kind := .Dummy }

/-- The state of a `DirectiveParser`: the rest of the line and the
directive parsed so far. -/
structure DirectiveParser where
  line : Line
  directive : TestDirective

/-- Rust `DirectiveParser::new`. -/
def DirectiveParser.new (line : Line) : DirectiveParser :=
  { line := line, directive := TestDirective.DUMMY }

/-- Rust `is_word_char` (nested in `next_word_idx`):
`b'a'..=b'z' | b'A'..=b'Z' | b'0'..=b'9' | b'-' | b'_'`. -/
def is_word_char (c : Char) : Bool :=
  (97 ≤ c.toNat && c.toNat ≤ 122) || (65 ≤ c.toNat && c.toNat ≤ 90) ||
    (48 ≤ c.toNat && c.toNat ≤ 57) || c.toNat == 45 || c.toNat == 95

/-- The byte loop of `DirectiveParser::next_word_idx`: `i` is the index of
the head of the remaining input, `start` the start index found so far.
Before a word is found, whitespace is skipped and a non-word, non-space
byte breaks the loop; once inside a word, the first non-word byte is the
end index, and reaching the end of input leaves the end index `none`. -/
def next_word_idx_aux : Line → Nat → Option Nat → Option Nat × Option Nat
  | [], _, start => (start, none)
  | c :: rest, i, none =>
    if u8_is_ascii_whitespace c then next_word_idx_aux rest (i + 1) none
    else if is_word_char c then next_word_idx_aux rest (i + 1) (some i)
    else (none, none)
  | c :: rest, i, some s =>
    if is_word_char c then next_word_idx_aux rest (i + 1) (some s)
    else (some s, some i)

/-- Rust `DirectiveParser::next_word_idx`: start and end indices of the
first word of the line, each optional. -/
def DirectiveParser.next_word_idx (p : DirectiveParser) : Option Nat × Option Nat :=
  next_word_idx_aux p.line 0 none

/-- Rust `DirectiveParser::parse_directive`: reads the first word; if both
indices are present and the word (after stripping a `no-` negation) is a
recognized directive keyword, consumes up to the word's end and records
the directive; otherwise leaves the parser unchanged. -/
def DirectiveParser.parse_directive (p : DirectiveParser) : DirectiveParser :=
  match p.next_word_idx with
  | (some start, some stop) =>
    let word := (p.line.drop start).take (stop - start)
    let negative := leadsWith (toLine "no-") word
    let word := if negative then word.drop 3 else word
    match DirectiveKind.from_str_ word with
    | none => p
    | some kind => { line := p.line.drop stop, directive := { negative := negative, kind := kind } }
  | _ => p

/-- Rust `DirectiveParser::expect_no_negative`: panics when the parsed
directive carries a `no-` negation. -/
def DirectiveParser.expect_no_negative (p : DirectiveParser) : Except String Unit :=
  if p.directive.negative then
    .error ("unexpected negative directive for " ++ p.directive.kind.debug_fmt)
  else
    .ok ()

/-- Rust `DirectiveParser::word_value`, at its only instantiation
`T = String` (whose `FromStr` never fails, so `parse().unwrap()` is the
word itself). Panics when the line holds no complete word
(`expected a word value`) or when the directive is negated; otherwise
returns the value to store. The `_value` argument mirrors the `&mut
Option<T>` out-parameter, whose previous content is overwritten unread. -/
def DirectiveParser.word_value (p : DirectiveParser) (_value : Option Line) :
    Except String (Option Line) :=
  match p.next_word_idx with
  | (some start, some stop) =>
    match p.expect_no_negative with
    | .error e => .error e
    | .ok _ => .ok (some ((p.line.drop start).take (stop - start)))
  | _ => .error "expected a word value"

/-- Rust `line_directive`: strips the comment marker, handles an optional
`[revision]` scope, and returns the revision (if any) and the directive
text; a `[` with no closing `]` panics. -/
def line_directive (comment : Line) (ln : Line) :
    Except String (Option (Option Line × Line)) :=
  let ln := trim_start ln
  if leadsWith comment ln then
    let ln := trim_start (ln.drop comment.length)
    if ln.head? == some '[' then
      match find_char ']' ln with
      | none =>
        .error ("malformed condition directive: expected `" ++ String.mk comment ++
          "[foo]`, found `" ++ String.mk ln ++ "`")
      | some close_brace =>
        .ok (some (some ((ln.drop 1).take (close_brace - 1)),
          trim_start (ln.drop (close_brace + 1))))
    else
      .ok (some (none, ln))
  else
    .ok none

/-- An expected-diagnostic record. Modelled from the spec: `Error` and its
loaders live in `tools/tester/src/errors.rs`, which is not among the
provided sources; the directive scan never inspects these records. -/
structure Error where
  raw : String
  deriving DecidableEq

/-- Test file directives (`TestProps`). -/
structure TestProps where
  expected_errors : List Error
  normalize_stdout : List (Line × Line)
  normalize_stderr : List (Line × Line)
  dont_check_compiler_stdout : Bool
  dont_check_compiler_stderr : Bool
  compare_output_lines_by_subset : Bool
  evm_version : Option Line
  deriving DecidableEq

/-- Rust `TestProps::new`. -/
def TestProps.new : TestProps :=
  { expected_errors := []
    normalize_stdout := []
    normalize_stderr := []
    dont_check_compiler_stdout := false
    dont_check_compiler_stderr := false
    compare_output_lines_by_subset := false
    evm_version := none }

/-- The body of the `directives_str` loop inside `TestProps::load`, folded
over the file's lines: skips lines scoped to a different revision, parses
the directive, and dispatches on its kind (`Dummy` is a no-op,
`EvmVersion` reads a word value into `evm_version`). -/
def TestProps.load_go (cfg : Option Line) : List Line → TestProps → Except String TestProps
  | [], props => .ok props
  | ln :: rest, props =>
    match line_directive (toLine "//") ln with
    | .error e => .error e
    | .ok none => TestProps.load_go cfg rest props
    | .ok (some (revision, line)) =>
      if revision.isSome && revision != cfg then TestProps.load_go cfg rest props
      else
        let p := (DirectiveParser.new line).parse_directive
        match p.directive.kind with
        | .Dummy => TestProps.load_go cfg rest props
        | .EvmVersion =>
          match p.word_value props.evm_version with
          | .error e => .error e
          | .ok v => TestProps.load_go cfg rest { props with evm_version := v }

/-- Rust `TestProps::load`: the file is given as its list of lines.
`Error::load` (outside the provided sources) fills `expected_errors`; it
never touches the other fields, which the model records by leaving the
field at its default. -/
def TestProps.load (file : List Line) (cfg : Option Line) : Except String TestProps :=
  TestProps.load_go cfg file TestProps.new

/-- The body of the `directives_file` callback inside
`TestProps::load_revisions`: only the first `revisions:` line outside any
revision scope contributes. -/
def load_revisions_step (revisions : List Line) (revision : Option Line) (line : Line) :
    List Line :=
  if revision.isSome || !revisions.isEmpty || !leadsWith (toLine "revisions:") line then
    revisions
  else
    revisions ++ split_ascii_whitespace (line.drop (toLine "revisions:").length)

/-- The `directives_file` loop of `TestProps::load_revisions`, folded over
the file's lines; each line is trimmed before directive extraction. -/
def load_revisions_go : List Line → List Line → Except String (List Line)
  | [], revisions => .ok revisions
  | ln :: rest, revisions =>
    match line_directive (toLine "//") (trim ln) with
    | .error e => .error e
    | .ok none => load_revisions_go rest revisions
    | .ok (some (revision, line)) =>
      load_revisions_go rest (load_revisions_step revisions revision line)

/-- Rust `TestProps::load_revisions`: the file is given as its list of
lines. -/
def TestProps.load_revisions (file : List Line) : Except String (List Line) :=
  load_revisions_go file []

/-- Whether an `Except` value is a success, i.e. the Rust computation it
models completes without panicking. -/
def except_ok {ε α : Type} : Except ε α → Bool
  | .ok _ => true
  | .error _ => false

/-! ## Helper lemmas -/

/-- A word character is never an ASCII whitespace byte. -/
theorem word_char_not_ws (c : Char) (h : is_word_char c = true) :
    u8_is_ascii_whitespace c = false := by
  cases hw : u8_is_ascii_whitespace c with
  | false => rfl
  | true =>
    exfalso
    simp only [is_word_char, u8_is_ascii_whitespace, Bool.or_eq_true, Bool.and_eq_true,
      decide_eq_true_eq, Nat.beq_eq_true_eq] at h hw
    omega

/-- Once inside a word, a tail made only of word characters never yields an
end index. -/
theorem next_word_idx_aux_all_word (l : Line) (i s : Nat)
    (h : ∀ c ∈ l, is_word_char c = true) :
    next_word_idx_aux l i (some s) = (some s, none) := by
  induction l generalizing i with
  | nil => rfl
  | cons c cs ih =>
    have hc : is_word_char c = true := h c (by simp)
    simp only [next_word_idx_aux, hc, if_true]
    exact ih (i + 1) (fun x hx => h x (by simp [hx]))

/-- Leading whitespace is skipped while no word has started. -/
theorem next_word_idx_aux_skip_ws (ws rest : Line) (i : Nat)
    (h : ∀ c ∈ ws, u8_is_ascii_whitespace c = true) :
    next_word_idx_aux (ws ++ rest) i none = next_word_idx_aux rest (i + ws.length) none := by
  induction ws generalizing i with
  | nil => simp
  | cons c cs ih =>
    have hc : u8_is_ascii_whitespace c = true := h c (by simp)
    simp only [List.cons_append, next_word_idx_aux, hc, if_true, List.append_eq]
    rw [ih (i + 1) (fun x hx => h x (by simp [hx]))]
    congr 1
    simp only [List.length_cons]
    omega

/-- `find_char` finds nothing on a line avoiding the character. -/
theorem find_char_eq_none (c : Char) (l : Line) (h : ∀ x ∈ l, x ≠ c) :
    find_char c l = none := by
  induction l with
  | nil => rfl
  | cons x xs ih =>
    have hx : (x == c) = false := by simpa using h x (by simp)
    simp [find_char, hx, ih (fun y hy => h y (by simp [hy]))]

/-- A fully processed leading segment of the file lets `load_revisions_go`
continue on the rest from the accumulated revisions. -/
theorem load_revisions_go_append (pre post : List Line) (acc acc2 : List Line)
    (h : load_revisions_go pre acc = .ok acc2) :
    load_revisions_go (pre ++ post) acc = load_revisions_go post acc2 := by
  induction pre generalizing acc with
  | nil =>
    obtain rfl : acc = acc2 := by simpa [load_revisions_go] using h
    rfl
  | cons l ls ih =>
    cases hld : line_directive (toLine "//") (trim l) with
    | error e => simp [load_revisions_go, hld] at h
    | ok v =>
      cases v with
      | none =>
        simp only [load_revisions_go, hld] at h
        simpa only [List.cons_append, load_revisions_go, hld] using ih _ h
      | some pr =>
        obtain ⟨rev, line⟩ := pr
        simp only [load_revisions_go, hld] at h
        simpa only [List.cons_append, load_revisions_go, hld] using ih _ h

/-- Once some revisions were collected, well-formed later lines leave them
unchanged. -/
theorem load_revisions_go_stable (post : List Line) (acc : List Line) (hne : acc ≠ [])
    (hok : ∀ l ∈ post, except_ok (line_directive (toLine "//") (trim l)) = true) :
    load_revisions_go post acc = .ok acc := by
  induction post with
  | nil => rfl
  | cons l ls ih =>
    have hl := hok l (by simp)
    cases hld : line_directive (toLine "//") (trim l) with
    | error e => rw [hld] at hl; simp [except_ok] at hl
    | ok v =>
      cases v with
      | none =>
        simp only [load_revisions_go, hld]
        exact ih (fun x hx => hok x (by simp [hx]))
      | some pr =>
        obtain ⟨rev, line⟩ := pr
        have hstep : load_revisions_step acc rev line = acc := by
          have hemp : acc.isEmpty = false := by cases acc <;> simp_all
          simp [load_revisions_step, hemp]
        simp only [load_revisions_go, hld, hstep]
        exact ih (fun x hx => hok x (by simp [hx]))

/-! ## Claim theorems -/

/-- C1: `PragmaTokens::as_name_and_value` returns `Some ((name, value))`
exactly on the `Custom` variant, with the returned pair being `Custom`'s
name and optional value; on every `Version` and every `Verbatim` instance
it returns `none`. -/
theorem as_name_and_value_custom_only :
    (∀ (t : PragmaTokens) (nv : IdentOrStrLit × Option IdentOrStrLit),
        t.as_name_and_value = some nv ↔
          ∃ name value, t = PragmaTokens.Custom name value ∧ nv = (name, value)) ∧
    (∀ (name : IdentOrStrLit) (value : Option IdentOrStrLit),
        (PragmaTokens.Custom name value).as_name_and_value = some (name, value)) ∧
    (∀ (name : Ident) (req : SemverReq),
        (PragmaTokens.Version name req).as_name_and_value = none) ∧
    (∀ (tokens : List Token), (PragmaTokens.Verbatim tokens).as_name_and_value = none) := by
  refine ⟨?_, fun _ _ => rfl, fun _ _ => rfl, fun _ => rfl⟩
  intro t nv
  cases t <;> simp [PragmaTokens.as_name_and_value] <;> aesop

/-- Companion witness for C1, applying the theorem at a concrete
`Verbatim` instance. -/
theorem as_name_and_value_custom_only_witness :
    (PragmaTokens.Verbatim []).as_name_and_value = none :=
  as_name_and_value_custom_only.2.2.2 []

/-- C2: for each of the six closed enums the canonical-string mapping is
injective, stable across repeated calls, and each string is the exact
keyword spelling (including embedded spaces). -/
theorem to_str_injective_stable_canonical :
    (∀ a b : Storage, a.to_str = b.to_str → a = b) ∧
    (∀ a b : Visibility, a.to_str = b.to_str → a = b) ∧
    (∀ a b : StateMutability, a.to_str = b.to_str → a = b) ∧
    (∀ a b : VarMut, a.to_str = b.to_str → a = b) ∧
    (∀ a b : ContractKind, a.to_str = b.to_str → a = b) ∧
    (∀ a b : FunctionKind, a.to_str = b.to_str → a = b) ∧
    (∀ a : Storage, a.to_str = a.to_str) ∧
    (∀ a : Visibility, a.to_str = a.to_str) ∧
    (∀ a : StateMutability, a.to_str = a.to_str) ∧
    (∀ a : VarMut, a.to_str = a.to_str) ∧
    (∀ a : ContractKind, a.to_str = a.to_str) ∧
    (∀ a : FunctionKind, a.to_str = a.to_str) ∧
    Storage.Memory.to_str = "memory" ∧
    Storage.Storage.to_str = "storage" ∧
    Storage.Calldata.to_str = "calldata" ∧
    Visibility.Private.to_str = "private" ∧
    Visibility.Internal.to_str = "internal" ∧
    Visibility.Public.to_str = "public" ∧
    Visibility.External.to_str = "external" ∧
    StateMutability.Pure.to_str = "pure" ∧
    StateMutability.View.to_str = "view" ∧
    StateMutability.Payable.to_str = "payable" ∧
    VarMut.Immutable.to_str = "immutable" ∧
    VarMut.Constant.to_str = "constant" ∧
    ContractKind.Contract.to_str = "contract" ∧
    ContractKind.AbstractContract.to_str = "abstract contract" ∧
    ContractKind.Interface.to_str = "interface" ∧
    ContractKind.Library.to_str = "library" ∧
    FunctionKind.Constructor.to_str = "constructor" ∧
    FunctionKind.Function.to_str = "function" ∧
    FunctionKind.Fallback.to_str = "fallback" ∧
    FunctionKind.Receive.to_str = "receive" ∧
    FunctionKind.Modifier.to_str = "modifier" := by
  decide

/-- Companion witness for C2, applying the injectivity part at a concrete
pair of `Storage` values. -/
theorem to_str_injective_stable_canonical_witness :
    Storage.Memory.to_str = Storage.Memory.to_str ∧ Storage.Memory = Storage.Memory :=
  ⟨rfl, to_str_injective_stable_canonical.1 Storage.Memory Storage.Memory rfl⟩

/-- C4: identifiers and string literals with the same text have the same
`IdentOrStrLit::value`, and `IdentOrStrLit::span` is the span of whichever
variant is present. -/
theorem ident_or_str_lit_value_span (i : Ident) (s : StrLit) :
    (i.name = s.value → (IdentOrStrLit.Ident i).value = (IdentOrStrLit.StrLit s).value) ∧
    (IdentOrStrLit.Ident i).span = i.span ∧
    (IdentOrStrLit.StrLit s).span = s.span := by
  refine ⟨fun h => ?_, rfl, rfl⟩
  simpa [IdentOrStrLit.value, Ident.as_str] using h

/-- Companion witness for C4: the identifier `foo` and the string literal
`"foo"` (distinct spans) give identical `value()` results. -/
theorem ident_or_str_lit_value_span_witness :
    ({ name := "foo", span := { lo := 0, hi := 3 } } : Ident).name =
      ({ value := "foo", span := { lo := 4, hi := 9 } } : StrLit).value ∧
    (IdentOrStrLit.Ident { name := "foo", span := { lo := 0, hi := 3 } }).value =
      (IdentOrStrLit.StrLit { value := "foo", span := { lo := 4, hi := 9 } }).value :=
  ⟨rfl, (ident_or_str_lit_value_span _ _).1 rfl⟩

/-- C9: the discriminants of `Private`, `Internal`, `Public`, `External`
are strictly increasing in that sequence, so comparing discriminants
realizes the restricted-to-unrestricted total order. -/
theorem visibility_discriminant_increasing :
    Visibility.discriminant .Private < Visibility.discriminant .Internal ∧
    Visibility.discriminant .Internal < Visibility.discriminant .Public ∧
    Visibility.discriminant .Public < Visibility.discriminant .External := by
  decide

/-- C3 counterexample: `// evm-version paris` scanned with no revision does
not produce `evm_version = some "paris"` — the scan panics with
`expected a word value` — and `// evm-version: paris` does not leave
`evm_version` at `none` either: it also panics. -/
theorem scenarioA_counterexample :
    TestProps.load [toLine "// evm-version paris"] none =
      Except.error "expected a word value" ∧
    TestProps.load [toLine "// evm-version: paris"] none =
      Except.error "expected a word value" :=
  ⟨rfl, rfl⟩

/-- C3 amended: both forms abort the scan with `expected a word value`:
in the space form the value word runs to the end of the line, so
`next_word_idx` yields no end index; in the colon form the keyword
`evm-version` does match (word extraction stops at the colon), but the
remainder `: paris` starts with a non-word character. The directive only
takes effect when the value word is followed by a further non-word
character, e.g. with a trailing space. -/
theorem scenarioA_amended :
    TestProps.load [toLine "// evm-version paris"] none =
      Except.error "expected a word value" ∧
    ((DirectiveParser.new (toLine "evm-version: paris")).parse_directive.directive.kind =
      DirectiveKind.EvmVersion) ∧
    TestProps.load [toLine "// evm-version: paris"] none =
      Except.error "expected a word value" ∧
    TestProps.load [toLine "// evm-version paris "] none =
      Except.ok { TestProps.new with evm_version := some (toLine "paris") } :=
  ⟨rfl, rfl, rfl, rfl⟩

/-- C5 counterexample: `//[release] evm-version shanghai` scanned with
revision `release` does not produce `evm_version = some "shanghai"` — the
scan panics with `expected a word value`. -/
theorem scenarioB_counterexample :
    TestProps.load [toLine "//[release] evm-version shanghai"] (some (toLine "release")) =
      Except.error "expected a word value" :=
  rfl

/-- C5 amended: scanned with revision `release` the scan aborts with
`expected a word value` (the value word runs to the end of the line);
scanned with revision `debug` the revision-scoped line is skipped and
`evm_version` stays `none`; with a trailing space after the value the
`release` scan sets `evm_version = some "shanghai"`. -/
theorem scenarioB_amended :
    TestProps.load [toLine "//[release] evm-version shanghai"] (some (toLine "release")) =
      Except.error "expected a word value" ∧
    TestProps.load [toLine "//[release] evm-version shanghai"] (some (toLine "debug")) =
      Except.ok TestProps.new ∧
    TestProps.new.evm_version = none ∧
    TestProps.load [toLine "//[release] evm-version shanghai "] (some (toLine "release")) =
      Except.ok { TestProps.new with evm_version := some (toLine "shanghai") } :=
  ⟨rfl, rfl, rfl, rfl⟩

/-- C6: in a file made of a leading segment contributing no revisions, a
first unscoped `// revisions: a b c` line, and any well-formed later lines
(which may include further `revisions:` lines), `load_revisions` returns
exactly `["a", "b", "c"]`: the first unscoped occurrence wins. -/
theorem load_revisions_first_wins (pre post : List Line)
    (hpre : load_revisions_go pre [] = Except.ok [])
    (hpost : ∀ l ∈ post, except_ok (line_directive (toLine "//") (trim l)) = true) :
    TestProps.load_revisions (pre ++ toLine "// revisions: a b c" :: post) =
      Except.ok [toLine "a", toLine "b", toLine "c"] := by
  unfold TestProps.load_revisions
  rw [load_revisions_go_append pre (toLine "// revisions: a b c" :: post) [] [] hpre]
  have h1 : load_revisions_go (toLine "// revisions: a b c" :: post) [] =
      load_revisions_go post [toLine "a", toLine "b", toLine "c"] := rfl
  rw [h1]
  exact load_revisions_go_stable post _ (by simp) hpost

/-- Companion witness for C6: a file holding `// revisions: a b c` and then
`// revisions: x y` yields only `["a", "b", "c"]`. -/
theorem load_revisions_first_wins_witness :
    load_revisions_go [] [] = Except.ok [] ∧
    TestProps.load_revisions [toLine "// revisions: a b c", toLine "// revisions: x y"] =
      Except.ok [toLine "a", toLine "b", toLine "c"] :=
  ⟨rfl, load_revisions_first_wins [] [toLine "// revisions: x y"] rfl (by decide)⟩

/-- C7 counterexample: the directive line `// no-evm-version` has `no-`
followed by the value-requiring keyword `evm-version` as its first word,
yet the scan does not abort at all: the directive word reaches the end of
the line, so `next_word_idx` yields no end index, `parse_directive` leaves
the directive at `DUMMY`, and the scan completes as a no-op. -/
theorem negative_directive_noop_counterexample :
    TestProps.load [toLine "// no-evm-version"] none = Except.ok TestProps.new ∧
    ((DirectiveParser.new (toLine "no-evm-version")).parse_directive.directive =
      TestDirective.DUMMY) ∧
    (DirectiveParser.new (toLine "no-evm-version")).next_word_idx = (some 0, none) :=
  ⟨rfl, rfl, rfl⟩

/-- C7 amended: a `no-`-negated value-bearing directive word that is
delimited by a non-word character parses to a negated `EvmVersion`
directive, and every parser state carrying a negated directive makes
`word_value` abort fatally rather than set or clear any property — in
`expect_no_negative` when a value word is delimited, with
`expected a word value` otherwise; whereas a `no-evm-version` word that
reaches the end of the line is never recognized and the line is a no-op. -/
theorem negative_value_directive_fatal :
    ((DirectiveParser.new (toLine "no-evm-version shanghai ")).parse_directive.directive =
      { negative := true, kind := DirectiveKind.EvmVersion }) ∧
    ((DirectiveParser.new (toLine "no-evm-version shanghai ")).parse_directive.word_value none =
      Except.error "unexpected negative directive for EvmVersion") ∧
    (TestProps.load [toLine "// no-evm-version shanghai x"] none =
      Except.error "unexpected negative directive for EvmVersion") ∧
    (TestProps.load [toLine "// no-evm-version shanghai"] none =
      Except.error "expected a word value") ∧
    (TestProps.load [toLine "// no-evm-version"] none = Except.ok TestProps.new) ∧
    (∀ (p : DirectiveParser) (v : Option Line), p.directive.negative = true →
      ∃ msg, p.word_value v = Except.error msg) := by
  refine ⟨rfl, rfl, rfl, rfl, rfl, ?_⟩
  intro p v h
  rcases hval : p.next_word_idx with ⟨a, b⟩
  cases a <;> cases b <;>
    simp [DirectiveParser.word_value, hval, DirectiveParser.expect_no_negative, h]

/-- Companion witness for C7, applying the universal part at a concrete
negated parser state. -/
theorem negative_value_directive_fatal_witness :
    ((DirectiveParser.new (toLine "no-evm-version shanghai")).parse_directive.directive.negative =
      true) ∧
    (∃ msg, (DirectiveParser.new (toLine "no-evm-version shanghai")).parse_directive.word_value
      none = Except.error msg) :=
  ⟨rfl, negative_value_directive_fatal.2.2.2.2.2 _ none rfl⟩

/-- C8: a comment line whose text after the comment marker starts with `[`
but contains no `]` makes `line_directive` abort fatally with a diagnostic
naming the offending line content, so no directive is extracted from it. -/
theorem unterminated_scope_fatal (ln : Line)
    (h1 : leadsWith (toLine "//") (trim_start ln) = true)
    (h2 : (trim_start ((trim_start ln).drop (toLine "//").length)).head? = some '[')
    (h3 : ∀ c ∈ trim_start ((trim_start ln).drop (toLine "//").length), c ≠ ']') :
    line_directive (toLine "//") ln =
      Except.error ("malformed condition directive: expected `" ++ String.mk (toLine "//") ++
        "[foo]`, found `" ++
        String.mk (trim_start ((trim_start ln).drop (toLine "//").length)) ++ "`") := by
  have hfind : find_char ']' (trim_start ((trim_start ln).drop (toLine "//").length)) = none :=
    find_char_eq_none _ _ h3
  simp [line_directive, h1, h2, hfind]

/-- Companion witness for C8: the line `//[foo` aborts the scan with the
malformed-directive diagnostic quoting `[foo`. -/
theorem unterminated_scope_fatal_witness :
    line_directive (toLine "//") (toLine "//[foo") =
      Except.error ("malformed condition directive: expected `" ++ String.mk (toLine "//") ++
        "[foo]`, found `" ++ String.mk (toLine "[foo") ++ "`") :=
  unterminated_scope_fatal (toLine "//[foo") rfl rfl (by decide)

/-- C10: whenever the line is whitespace followed by a word run reaching
the end of the string, `next_word_idx` reports no end index; and whenever
`next_word_idx` reports no end index, `word_value` panics with
`expected a word value`. -/
theorem word_at_line_end_no_end_idx :
    (∀ (ws rest : Line) (d : TestDirective),
      (∀ c ∈ ws, u8_is_ascii_whitespace c = true) → rest ≠ [] →
      (∀ c ∈ rest, is_word_char c = true) →
      (DirectiveParser.next_word_idx { line := ws ++ rest, directive := d }).2 = none) ∧
    (∀ (p : DirectiveParser) (v : Option Line), (p.next_word_idx).2 = none →
      p.word_value v = Except.error "expected a word value") := by
  constructor
  · intro ws rest d hws hne hword
    cases rest with
    | nil => exact absurd rfl hne
    | cons r rs =>
      show (next_word_idx_aux (ws ++ r :: rs) 0 none).2 = none
      rw [next_word_idx_aux_skip_ws ws (r :: rs) 0 hws]
      have hr : is_word_char r = true := hword r (by simp)
      have hrw : u8_is_ascii_whitespace r = false := word_char_not_ws r hr
      simp only [next_word_idx_aux, hrw, hr, if_true, Bool.false_eq_true, if_false]
      rw [next_word_idx_aux_all_word rs _ _ (fun x hx => hword x (by simp [hx]))]
  · intro p v h
    rcases hval : p.next_word_idx with ⟨a, b⟩
    rw [hval] at h
    cases b with
    | some e => simp at h
    | none =>
      cases a <;> simp [DirectiveParser.word_value, hval]

/-- Companion witness for C10 at the line remainder `· paris` (a space and
then a word reaching the end of the line). -/
theorem word_at_line_end_no_end_idx_witness :
    (DirectiveParser.next_word_idx
      { line := toLine " paris", directive := TestDirective.DUMMY }).2 = none ∧
    DirectiveParser.word_value
      { line := toLine " paris", directive := TestDirective.DUMMY } none =
      Except.error "expected a word value" :=
  ⟨word_at_line_end_no_end_idx.1 [' '] (toLine "paris") TestDirective.DUMMY
      (by decide) (by decide) (by decide),
    word_at_line_end_no_end_idx.2
      { line := toLine " paris", directive := TestDirective.DUMMY } none rfl⟩
